import Mathlib

set_option maxHeartbeats 1000000

/-!
Shallow embedding of the webhook discovery-and-dispatch core of the
nestjs-stripe repository:

* src/services/stripe-webhook-explorer.service.ts
  (StripeWebhookExplorerService: explore, lookupWebhookHandlers,
  processWebhookEvent),
* src/controllers/stripe-webhook.controller.ts
  (StripeWebhookController.handleWebhook),
* src/decorators/stripe-webhook-handler.decorator.ts
  (StripeWebhookHandlerMetadata).

JavaScript specifics reflected in the model:

* a service instance is a bag of named methods; method lookup
  (instance[methodName]) is modelled by find? on the method list;
* Reflect.getMetadata on a method returns the decorator metadata or
  undefined, modelled by an Option field on the method;
* the Map of handlers is an association list with JS Map semantics
  (set keeps the position of an existing key, otherwise appends);
* each handler invocation is an asynchronous task started at time 0 that
  settles after a fixed duration with either a fulfilled Unit or a
  rejection; Promise.all fulfills at the latest fulfillment once all
  fulfill, and rejects at the EARLIEST rejection (without cancelling the
  sibling tasks, which keep running);
* the dispatch trace records every instance[methodName](event) call the
  dispatcher starts, in array order.
-/

/-- A Stripe webhook event as consumed by the controller and the dispatcher:
only the type name and the id are inspected; the payload is opaque and is
modelled by a numeric tag. -/
structure StripeEvent where
  type : String
  id : String
  payloadTag : Nat
  deriving DecidableEq, Repr

/-- Errors thrown inside the controller try block: the Stripe signature
verification error (checked via instanceof in the catch) or any other
error carrying a message. -/
inductive WebhookError where
  | signatureVerification (msg : String)
  | other (msg : String)
  deriving DecidableEq, Repr

/-- Decidable equality for Except results, used to evaluate dispatch
results on concrete inputs. -/
instance instDecEqExcept {ε α : Type} [DecidableEq ε] [DecidableEq α] :
    DecidableEq (Except ε α) := fun x y =>
  match x, y with
  | Except.ok a, Except.ok b =>
    if h : a = b then isTrue (by rw [h])
    else isFalse (by intro hc; injection hc; exact h (by assumption))
  | Except.ok _, Except.error _ => isFalse (by intro hc; exact Except.noConfusion hc)
  | Except.error _, Except.ok _ => isFalse (by intro hc; exact Except.noConfusion hc)
  | Except.error a, Except.error b =>
    if h : a = b then isTrue (by rw [h])
    else isFalse (by intro hc; injection hc; exact h (by assumption))

/-- Outcome of one started handler invocation: the time at which its promise
settles and whether it fulfills or rejects. -/
structure HandlerOutcome where
  duration : Nat
  result : Except WebhookError Unit
  deriving DecidableEq, Repr

/-- Metadata attached by the StripeWebhookHandler decorator
(stripe-webhook-handler.decorator.ts). -/
structure StripeWebhookHandlerMetadata where
  eventName : String
  deriving DecidableEq, Repr

/-- A method of a provider instance: its name, the decorator metadata that
Reflect.getMetadata returns for it (none when the tag is absent, malformed
or unreadable), and its runtime behavior when invoked with an event. -/
structure MethodDef where
  name : String
  metadata : Option StripeWebhookHandlerMetadata
  behavior : StripeEvent → HandlerOutcome

/-- A provider instance: an identity (modelling the object reference) and
its methods. -/
structure ServiceInstance where
  instId : Nat
  methods : List MethodDef

/-- An InstanceWrapper from the DI container; the wrapped instance is none
when the source guard (no instance, or not an object) makes explore skip
the wrapper. The source field is named instance, a reserved word here. -/
structure InstanceWrapper where
  inst : Option ServiceInstance

/-- One registration, mirroring the WebhookHandlerInfo interface of
stripe-webhook-explorer.service.ts (field instance renamed to inst). -/
structure WebhookHandlerInfo where
  inst : ServiceInstance
  methodName : String
  eventName : String

/-- The webhookHandlers map: event name to array of registrations, as a JS
Map (insertion-ordered association list). -/
abbrev HandlerMap := List (String × List WebhookHandlerInfo)

/-- JS Map.has. -/
def mapHas (m : HandlerMap) (k : String) : Bool :=
  m.any (fun kv => kv.1 == k)

/-- JS Map.get (undefined becomes none). -/
def mapGet (m : HandlerMap) (k : String) : Option (List WebhookHandlerInfo) :=
  (m.find? (fun kv => kv.1 == k)).map (fun kv => kv.2)

/-- JS Map.set: overwrite in place when the key exists, otherwise append. -/
def mapSet (m : HandlerMap) (k : String) (v : List WebhookHandlerInfo) : HandlerMap :=
  if m.any (fun kv => kv.1 == k) then
    m.map (fun kv => if kv.1 == k then (k, v) else kv)
  else
    m ++ [(k, v)]

/-- The bucket of handlers consulted for a type:
this.webhookHandlers.get(t) with a missing or empty bucket giving the
empty array (the source writes get(event.type) or-else []). -/
def handlersFor (m : HandlerMap) (t : String) : List WebhookHandlerInfo :=
  (mapGet m t).getD []

/-- StripeWebhookExplorerService.lookupWebhookHandlers: read the decorator
metadata of instance[methodName]; when present, ensure a bucket for its
eventName exists and push the registration onto it. -/
def lookupWebhookHandlers (m : HandlerMap) (inst : ServiceInstance)
    (methodName : String) : HandlerMap :=
  match inst.methods.find? (fun md => md.name == methodName) with
  | none => m
  | some methodRef =>
    match methodRef.metadata with
    | none => m
    | some meta =>
      let eventName := meta.eventName
      let m1 := if mapHas m eventName then m else mapSet m eventName []
      mapSet m1 eventName
        (handlersFor m1 eventName ++ [⟨inst, methodName, eventName⟩])

/-- The scan of one instance: metadataScanner.scanFromPrototype calls
lookupWebhookHandlers for every method name of the instance. -/
def scanInstance (m : HandlerMap) (inst : ServiceInstance) : HandlerMap :=
  inst.methods.foldl (fun acc md => lookupWebhookHandlers acc inst md.name) m

/-- One step of the provider iteration in explore: wrappers whose instance
is missing or not an object are skipped. -/
def scanStep (m : HandlerMap) (w : InstanceWrapper) : HandlerMap :=
  match w.inst with
  | none => m
  | some inst => scanInstance m inst

/-- StripeWebhookExplorerService.explore: iterate all providers from the
discovery service, scanning each; starts from the empty map (the field
initializer new Map()). The trailing forEach only logs. -/
def explore (providers : List InstanceWrapper) : HandlerMap :=
  providers.foldl scanStep []

/-- One recorded handler invocation: the call
instance[methodName](event) started by the dispatcher. -/
structure Invocation where
  instId : Nat
  methodName : String
  event : StripeEvent
  deriving DecidableEq, Repr

/-- Behavior of await instance[methodName](event): look the method up by
name and run it (the name always resolves for registered handlers). -/
def invoke (inst : ServiceInstance) (methodName : String) (e : StripeEvent) :
    HandlerOutcome :=
  match inst.methods.find? (fun md => md.name == methodName) with
  | some md => md.behavior e
  | none => { duration := 0, result := Except.error (WebhookError.other "TypeError") }

/-- The rejections among a list of settled outcomes, with their settle
times, in array order. -/
def rejections (outcomes : List HandlerOutcome) : List (Nat × WebhookError) :=
  outcomes.filterMap (fun o =>
    match o.result with
    | Except.error err => some (o.duration, err)
    | Except.ok _ => none)

/-- The rejection Promise.all settles with: the earliest one in time,
array order breaking ties. -/
def earliestRejection : List (Nat × WebhookError) → Option (Nat × WebhookError)
  | [] => none
  | x :: xs => some (xs.foldl (fun a y => if y.1 < a.1 then y else a) x)

/-- Result of one processWebhookEvent call: the value of the returned
promise (ok b for a fulfilled boolean, error for a rejection), the time at
which that promise settles, and the trace of handler invocations started. -/
structure DispatchResult where
  result : Except WebhookError Bool
  settleTime : Nat
  trace : List Invocation
  deriving DecidableEq, Repr

/-- StripeWebhookExplorerService.processWebhookEvent: look up the bucket
for event.type; with no handlers return false; otherwise start every
handler concurrently (handlers.map of an async closure that awaits the
method and rethrows its error after logging) and await Promise.all:
fulfilled with true at the latest fulfillment when all fulfill, rejected
at (and with) the earliest rejection otherwise — the sibling invocations
are all started and none is cancelled. -/
def processWebhookEvent (m : HandlerMap) (event : StripeEvent) : DispatchResult :=
  let handlers := handlersFor m event.type
  if handlers.length == 0 then
    { result := Except.ok false, settleTime := 0, trace := [] }
  else
    let outcomes := handlers.map (fun h => invoke h.inst h.methodName event)
    let trace := handlers.map (fun h =>
      { instId := h.inst.instId, methodName := h.methodName, event := event : Invocation })
    match earliestRejection (rejections outcomes) with
    | some te =>
      { result := Except.error te.2, settleTime := te.1, trace := trace }
    | none =>
      { result := Except.ok true,
        settleTime := (outcomes.map HandlerOutcome.duration).foldl Nat.max 0,
        trace := trace }

/-- The StripeConfig interface (stripe-config.interface.ts); apiVersion is
never read by the webhook path and is modelled as an opaque string. -/
structure StripeConfig where
  apiKey : Option String
  webhookSecret : Option String
  apiVersion : Option String

/-- JS falsiness of an optional string: undefined or the empty string. -/
def jsFalsy : Option String → Bool
  | none => true
  | some s => s == ""

/-- The value returned by handleWebhook: a failure body with success false
and a message, or a success body with success true, the processed flag and
the event type and id. -/
inductive WebhookResponse where
  | failure (message : String)
  | success (processed : Bool) (eventType : String) (eventId : String)
  deriving DecidableEq, Repr

/-- The message the controller catch block produces for a thrown error:
instanceof StripeSignatureVerificationError gets the dedicated message,
everything else the generic one. -/
def catchMessage : WebhookError → String
  | WebhookError.signatureVerification _ => "Webhook signature verification failed"
  | WebhookError.other _ => "Error processing webhook"

/-- Observable result of one handleWebhook call: the response body, the
list of events passed to processWebhookEvent (the dispatch calls made),
and the handler invocations those dispatches started. -/
structure HandleResult where
  response : WebhookResponse
  dispatched : List StripeEvent
  trace : List Invocation

/-- StripeWebhookController.handleWebhook. The verifier parameter models
stripeService.createWebhookEvent (Stripe webhooks.constructEvent): from the
raw payload, the signature header and the configured secret it returns a
verified event or throws. The guards and the catch block mirror the source;
every branch returns a response, so the translated function is total (the
controller never propagates an exception). -/
def handleWebhook (verify : Nat → String → String → Except WebhookError StripeEvent)
    (m : HandlerMap) (cfg : StripeConfig)
    (signature : Option String) (rawBody : Option Nat) : HandleResult :=
  if jsFalsy signature then
    { response := WebhookResponse.failure "Missing signature header",
      dispatched := [], trace := [] }
  else if jsFalsy cfg.webhookSecret then
    { response := WebhookResponse.failure "Webhook secret not configured",
      dispatched := [], trace := [] }
  else
    match rawBody with
    | none =>
      { response := WebhookResponse.failure "Missing request body",
        dispatched := [], trace := [] }
    | some payload =>
      match verify payload (signature.getD "") (cfg.webhookSecret.getD "") with
      | Except.error err =>
        { response := WebhookResponse.failure (catchMessage err),
          dispatched := [], trace := [] }
      | Except.ok event =>
        let d := processWebhookEvent m event
        match d.result with
        | Except.ok processed =>
          { response := WebhookResponse.success processed event.type event.id,
            dispatched := [event], trace := d.trace }
        | Except.error err =>
          { response := WebhookResponse.failure (catchMessage err),
            dispatched := [event], trace := d.trace }

/-! Association-list lemmas for the JS Map operations. -/

theorem mapGet_none_of_not_has (m : HandlerMap) (k : String)
    (h : mapHas m k = false) : mapGet m k = none := by
  simp only [mapHas, List.any_eq_false] at h
  simp only [mapGet, Option.map_eq_none']
  rw [List.find?_eq_none]
  exact h

theorem handlersFor_nil (k : String) : handlersFor [] k = [] := rfl

theorem handlersFor_eq_nil_of_not_has (m : HandlerMap) (k : String)
    (h : mapHas m k = false) : handlersFor m k = [] := by
  simp [handlersFor, mapGet_none_of_not_has m k h]

theorem mapGet_mapSet_self (m : HandlerMap) (k : String)
    (v : List WebhookHandlerInfo) : mapGet (mapSet m k v) k = some v := by
  unfold mapSet
  by_cases hany : m.any (fun kv => kv.1 == k) = true
  · rw [if_pos hany]
    rw [List.any_eq_true] at hany
    obtain ⟨kv0, hmem, hp⟩ := hany
    have hfind : m.find? (fun kv => kv.1 == k) ≠ none := by
      rw [Ne, List.find?_eq_none]
      intro hall
      exact hall kv0 hmem hp
    obtain ⟨kv1, hkv1⟩ := Option.ne_none_iff_exists'.mp hfind
    have hp1 : (kv1.1 == k) = true := List.find?_some (p := fun kv : String × List WebhookHandlerInfo => kv.1 == k) hkv1
    simp only [mapGet, List.find?_map]
    have hcomp : (fun kv => kv.1 == k) ∘ (fun kv : String × List WebhookHandlerInfo =>
        if kv.1 == k then (k, v) else kv) = fun kv => kv.1 == k := by
      funext kv
      by_cases hk : (kv.1 == k) = true
      · simp [Function.comp, hk, beq_self_eq_true]
      · simp [Function.comp, hk]
    rw [hcomp, hkv1]
    have hk1 : kv1.1 = k := by rwa [beq_iff_eq] at hp1
    simp [hk1]
  · rw [if_neg hany]
    rw [Bool.not_eq_true] at hany
    have hnone : m.find? (fun kv => kv.1 == k) = none := by
      rw [List.find?_eq_none]
      intro x hx
      rw [List.any_eq_false] at hany
      exact hany x hx
    simp [mapGet, List.find?_append, hnone, List.find?]

theorem mapGet_mapSet_ne (m : HandlerMap) (k k' : String)
    (v : List WebhookHandlerInfo) (h : k' ≠ k) :
    mapGet (mapSet m k v) k' = mapGet m k' := by
  have hkk' : ((k : String) == k') = false := by
    rw [beq_eq_false_iff_ne]
    exact fun hc => h hc.symm
  unfold mapSet
  by_cases hany : m.any (fun kv => kv.1 == k) = true
  · rw [if_pos hany]
    simp only [mapGet, List.find?_map]
    have hcomp : (fun kv => kv.1 == k') ∘ (fun kv : String × List WebhookHandlerInfo =>
        if kv.1 == k then (k, v) else kv) = fun kv => kv.1 == k' := by
      funext kv
      by_cases hk : (kv.1 == k) = true
      · have : kv.1 = k := by rwa [beq_iff_eq] at hk
        simp [Function.comp, hk, this, hkk']
      · simp [Function.comp, hk]
    rw [hcomp]
    cases hfind : m.find? (fun kv => kv.1 == k') with
    | none => rfl
    | some kv0 =>
      have hp0 : (kv0.1 == k') = true := List.find?_some (p := fun kv : String × List WebhookHandlerInfo => kv.1 == k') hfind
      have hk0 : (kv0.1 == k) = false := by
        rw [beq_eq_false_iff_ne]
        intro hc
        rw [hc] at hp0
        rw [hp0] at hkk'
        exact Bool.true_eq_false.mp hkk'
      have hne0 : ¬ kv0.1 = k := by rwa [beq_eq_false_iff_ne] at hk0
      simp [hne0]
  · rw [if_neg hany]
    simp [mapGet, List.find?_append, List.find?, hkk', Option.or_none]

theorem handlersFor_mapSet_self (m : HandlerMap) (k : String)
    (v : List WebhookHandlerInfo) : handlersFor (mapSet m k v) k = v := by
  simp [handlersFor, mapGet_mapSet_self]

theorem handlersFor_mapSet_ne (m : HandlerMap) (k k' : String)
    (v : List WebhookHandlerInfo) (h : k' ≠ k) :
    handlersFor (mapSet m k v) k' = handlersFor m k' := by
  simp [handlersFor, mapGet_mapSet_ne m k k' v h]

/-- Membership in a JS Map after set: either the new pair, or an old pair
whose key differs from the written key. -/
theorem mem_mapSet (m : HandlerMap) (k : String) (v : List WebhookHandlerInfo)
    (kv : String × List WebhookHandlerInfo) (hmem : kv ∈ mapSet m k v) :
    kv = (k, v) ∨ (kv ∈ m ∧ (kv.1 == k) = false) := by
  unfold mapSet at hmem
  by_cases hany : m.any (fun kv => kv.1 == k) = true
  · rw [if_pos hany] at hmem
    rw [List.mem_map] at hmem
    obtain ⟨kv0, hkv0, heq⟩ := hmem
    by_cases hk : (kv0.1 == k) = true
    · left
      rw [← heq]
      simp [hk]
    · right
      rw [Bool.not_eq_true] at hk
      simp only [hk, Bool.false_eq_true, if_neg, not_false_iff] at heq
      rw [← heq]
      exact ⟨hkv0, hk⟩
  · rw [if_neg hany] at hmem
    rw [Bool.not_eq_true, List.any_eq_false] at hany
    rcases List.mem_append.mp hmem with hin | hnew
    · right
      refine ⟨hin, ?_⟩
      have := hany kv hin
      rwa [Bool.not_eq_true] at this
    · left
      simpa using hnew

/-! Characterization of one lookupWebhookHandlers step. -/

theorem lookup_of_find_none (m : HandlerMap) (inst : ServiceInstance) (n : String)
    (h : inst.methods.find? (fun md => md.name == n) = none) :
    lookupWebhookHandlers m inst n = m := by
  unfold lookupWebhookHandlers
  rw [h]

theorem lookup_of_meta_none (m : HandlerMap) (inst : ServiceInstance) (n : String)
    (md : MethodDef) (hf : inst.methods.find? (fun x => x.name == n) = some md)
    (hm : md.metadata = none) :
    lookupWebhookHandlers m inst n = m := by
  unfold lookupWebhookHandlers
  rw [hf]
  dsimp only
  rw [hm]

/-- The bucket the ensure-then-push pair of map writes reads is the bucket
of the original map (the freshly created bucket is empty exactly when the
original map has no bucket). -/
theorem handlersFor_ensure (m : HandlerMap) (e : String) :
    handlersFor (if mapHas m e then m else mapSet m e []) e = handlersFor m e := by
  by_cases h : mapHas m e = true
  · rw [if_pos h]
  · rw [Bool.not_eq_true] at h
    rw [if_neg (by rw [h]; exact Bool.false_ne_true)]
    rw [handlersFor_mapSet_self, handlersFor_eq_nil_of_not_has m e h]

theorem handlersFor_ensure_ne (m : HandlerMap) (e k : String) (hk : k ≠ e) :
    handlersFor (if mapHas m e then m else mapSet m e []) k = handlersFor m k := by
  by_cases h : mapHas m e = true
  · rw [if_pos h]
  · rw [Bool.not_eq_true] at h
    rw [if_neg (by rw [h]; exact Bool.false_ne_true)]
    exact handlersFor_mapSet_ne m e k [] hk

/-- A registering step appends exactly one registration to the bucket of
the tag's event name. -/
theorem handlersFor_lookup_self (m : HandlerMap) (inst : ServiceInstance) (n : String)
    (md : MethodDef) (meta : StripeWebhookHandlerMetadata)
    (hf : inst.methods.find? (fun x => x.name == n) = some md)
    (hm : md.metadata = some meta) :
    handlersFor (lookupWebhookHandlers m inst n) meta.eventName =
      handlersFor m meta.eventName ++ [⟨inst, n, meta.eventName⟩] := by
  unfold lookupWebhookHandlers
  rw [hf]
  dsimp only
  rw [hm]
  dsimp only
  rw [handlersFor_mapSet_self, handlersFor_ensure]

/-- A registering step leaves every other bucket unchanged. -/
theorem handlersFor_lookup_ne (m : HandlerMap) (inst : ServiceInstance) (n : String)
    (md : MethodDef) (meta : StripeWebhookHandlerMetadata)
    (hf : inst.methods.find? (fun x => x.name == n) = some md)
    (hm : md.metadata = some meta) (k : String) (hk : k ≠ meta.eventName) :
    handlersFor (lookupWebhookHandlers m inst n) k = handlersFor m k := by
  unfold lookupWebhookHandlers
  rw [hf]
  dsimp only
  rw [hm]
  dsimp only
  rw [handlersFor_mapSet_ne _ _ _ _ hk, handlersFor_ensure_ne _ _ _ hk]

/-- Any bucket after a lookupWebhookHandlers step: unchanged, or extended
by the one registration the step creates. -/
theorem handlersFor_lookup_cases (m : HandlerMap) (inst : ServiceInstance)
    (n : String) (k : String) :
    handlersFor (lookupWebhookHandlers m inst n) k = handlersFor m k ∨
      ∃ md meta, inst.methods.find? (fun x => x.name == n) = some md ∧
        md.metadata = some meta ∧ k = meta.eventName ∧
        handlersFor (lookupWebhookHandlers m inst n) k =
          handlersFor m k ++ [⟨inst, n, k⟩] := by
  cases hf : inst.methods.find? (fun x => x.name == n) with
  | none => left; rw [lookup_of_find_none m inst n hf]
  | some md =>
    cases hm : md.metadata with
    | none => left; rw [lookup_of_meta_none m inst n md hf hm]
    | some meta =>
      by_cases hk : k = meta.eventName
      · right
        refine ⟨md, meta, rfl, hm, hk, ?_⟩
        rw [hk]
        exact handlersFor_lookup_self m inst n md meta hf hm
      · left
        exact handlersFor_lookup_ne m inst n md meta hf hm k hk

/-! Monotonicity: registrations persist across later scan steps. -/

theorem mem_handlersFor_lookup (m : HandlerMap) (inst : ServiceInstance)
    (n : String) (k : String) (info : WebhookHandlerInfo)
    (h : info ∈ handlersFor m k) :
    info ∈ handlersFor (lookupWebhookHandlers m inst n) k := by
  rcases handlersFor_lookup_cases m inst n k with heq | ⟨_, _, _, _, _, heq⟩
  · rw [heq]; exact h
  · rw [heq]; exact List.mem_append_left _ h

theorem mem_handlersFor_foldl_methods (inst : ServiceInstance) (k : String)
    (info : WebhookHandlerInfo) :
    ∀ (l : List MethodDef) (m : HandlerMap), info ∈ handlersFor m k →
      info ∈ handlersFor
        (l.foldl (fun acc md => lookupWebhookHandlers acc inst md.name) m) k := by
  intro l
  induction l with
  | nil => intro m h; exact h
  | cons x t ih =>
    intro m h
    exact ih _ (mem_handlersFor_lookup m inst x.name k info h)

theorem mem_handlersFor_scanInstance (m : HandlerMap) (inst : ServiceInstance)
    (k : String) (info : WebhookHandlerInfo) (h : info ∈ handlersFor m k) :
    info ∈ handlersFor (scanInstance m inst) k :=
  mem_handlersFor_foldl_methods inst k info inst.methods m h

theorem mem_handlersFor_scanStep (m : HandlerMap) (w : InstanceWrapper)
    (k : String) (info : WebhookHandlerInfo) (h : info ∈ handlersFor m k) :
    info ∈ handlersFor (scanStep m w) k := by
  unfold scanStep
  cases w.inst with
  | none => exact h
  | some inst => exact mem_handlersFor_scanInstance m inst k info h

theorem mem_handlersFor_foldl_scanStep (k : String) (info : WebhookHandlerInfo) :
    ∀ (l : List InstanceWrapper) (m : HandlerMap), info ∈ handlersFor m k →
      info ∈ handlersFor (l.foldl scanStep m) k := by
  intro l
  induction l with
  | nil => intro m h; exact h
  | cons w t ih =>
    intro m h
    exact ih _ (mem_handlersFor_scanStep m w k info h)

/-! Completeness: every tagged method ends up registered under its tag. -/

theorem registered_after_foldl_methods (inst : ServiceInstance) (md : MethodDef)
    (meta : StripeWebhookHandlerMetadata)
    (hf : inst.methods.find? (fun x => x.name == md.name) = some md)
    (hm : md.metadata = some meta) :
    ∀ (l : List MethodDef) (m : HandlerMap), md ∈ l →
      (⟨inst, md.name, meta.eventName⟩ : WebhookHandlerInfo) ∈
        handlersFor
          (l.foldl (fun acc x => lookupWebhookHandlers acc inst x.name) m)
          meta.eventName := by
  intro l
  induction l with
  | nil => intro m h; cases h
  | cons x t ih =>
    intro m hmem
    rcases List.mem_cons.mp hmem with heq | htail
    · subst heq
      rw [List.foldl_cons]
      apply mem_handlersFor_foldl_methods inst meta.eventName _ t
      rw [handlersFor_lookup_self m inst md.name md meta hf hm]
      exact List.mem_append_right _ (List.mem_singleton.mpr rfl)
    · exact ih _ htail

theorem registered_after_scanInstance (m : HandlerMap) (inst : ServiceInstance)
    (md : MethodDef) (meta : StripeWebhookHandlerMetadata)
    (hf : inst.methods.find? (fun x => x.name == md.name) = some md)
    (hm : md.metadata = some meta) :
    (⟨inst, md.name, meta.eventName⟩ : WebhookHandlerInfo) ∈
      handlersFor (scanInstance m inst) meta.eventName :=
  registered_after_foldl_methods inst md meta hf hm inst.methods m
    (List.mem_of_find?_eq_some hf)

theorem registered_after_foldl_scanStep (inst : ServiceInstance) (md : MethodDef)
    (meta : StripeWebhookHandlerMetadata)
    (hf : inst.methods.find? (fun x => x.name == md.name) = some md)
    (hm : md.metadata = some meta) :
    ∀ (l : List InstanceWrapper) (m : HandlerMap) (w : InstanceWrapper),
      w ∈ l → w.inst = some inst →
      (⟨inst, md.name, meta.eventName⟩ : WebhookHandlerInfo) ∈
        handlersFor (l.foldl scanStep m) meta.eventName := by
  intro l
  induction l with
  | nil => intro m w h; cases h
  | cons w0 t ih =>
    intro m w hmem hw
    rcases List.mem_cons.mp hmem with heq | htail
    · subst heq
      rw [List.foldl_cons]
      apply mem_handlersFor_foldl_scanStep meta.eventName _ t
      unfold scanStep
      rw [hw]
      exact registered_after_scanInstance m inst md meta hf hm
    · exact ih _ w htail hw

/-- Discovery completeness: a tagged method of a scanned instance is in the
handler index under its tag after explore. -/
theorem explore_complete (providers : List InstanceWrapper) (w : InstanceWrapper)
    (inst : ServiceInstance) (md : MethodDef) (meta : StripeWebhookHandlerMetadata)
    (hw : w ∈ providers) (hi : w.inst = some inst)
    (hf : inst.methods.find? (fun x => x.name == md.name) = some md)
    (hm : md.metadata = some meta) :
    (⟨inst, md.name, meta.eventName⟩ : WebhookHandlerInfo) ∈
      handlersFor (explore providers) meta.eventName :=
  registered_after_foldl_scanStep inst md meta hf hm providers [] w hw hi

/-! Soundness: every registration comes from a tagged method of a scanned
instance, was registered under exactly its tag, and carries that tag as its
eventName field. -/

/-- What soundness records about a registration found under key k. -/
def SoundReg (info : WebhookHandlerInfo) (k : String) : Prop :=
  info.eventName = k ∧
    ∃ md meta,
      info.inst.methods.find? (fun x => x.name == info.methodName) = some md ∧
      md.metadata = some meta ∧ meta.eventName = k

theorem sound_lookup (m : HandlerMap) (inst : ServiceInstance) (n : String)
    (k : String) (info : WebhookHandlerInfo)
    (h : info ∈ handlersFor (lookupWebhookHandlers m inst n) k) :
    info ∈ handlersFor m k ∨ (info.inst = inst ∧ SoundReg info k) := by
  rcases handlersFor_lookup_cases m inst n k with heq | ⟨md, meta, hf, hm, hk, heq⟩
  · rw [heq] at h
    exact Or.inl h
  · rw [heq] at h
    rcases List.mem_append.mp h with hin | hnew
    · exact Or.inl hin
    · right
      have hinfo : info = (⟨inst, n, k⟩ : WebhookHandlerInfo) :=
        List.mem_singleton.mp hnew
      subst hinfo
      exact ⟨rfl, rfl, md, meta, hf, hm, hk.symm⟩

theorem sound_foldl_methods (inst : ServiceInstance) (k : String)
    (info : WebhookHandlerInfo) :
    ∀ (l : List MethodDef) (m : HandlerMap),
      info ∈ handlersFor
        (l.foldl (fun acc x => lookupWebhookHandlers acc inst x.name) m) k →
      info ∈ handlersFor m k ∨ (info.inst = inst ∧ SoundReg info k) := by
  intro l
  induction l with
  | nil => intro m h; exact Or.inl h
  | cons x t ih =>
    intro m h
    rcases ih _ h with hin | hreg
    · exact sound_lookup m inst x.name k info hin
    · exact Or.inr hreg

theorem sound_scanStep (m : HandlerMap) (w : InstanceWrapper) (k : String)
    (info : WebhookHandlerInfo)
    (h : info ∈ handlersFor (scanStep m w) k) :
    info ∈ handlersFor m k ∨
      (∃ inst, w.inst = some inst ∧ info.inst = inst ∧ SoundReg info k) := by
  unfold scanStep at h
  cases hw : w.inst with
  | none => rw [hw] at h; exact Or.inl h
  | some inst =>
    rw [hw] at h
    rcases sound_foldl_methods inst k info inst.methods m h with hin | ⟨hi, hs⟩
    · exact Or.inl hin
    · exact Or.inr ⟨inst, rfl, hi, hs⟩

theorem sound_foldl_scanStep (k : String) (info : WebhookHandlerInfo) :
    ∀ (l : List InstanceWrapper) (m : HandlerMap),
      info ∈ handlersFor (l.foldl scanStep m) k →
      info ∈ handlersFor m k ∨
        (∃ w, w ∈ l ∧ ∃ inst, w.inst = some inst ∧ info.inst = inst ∧
          SoundReg info k) := by
  intro l
  induction l with
  | nil => intro m h; exact Or.inl h
  | cons w0 t ih =>
    intro m h
    rcases ih _ h with hin | ⟨w, hwmem, rest⟩
    · rcases sound_scanStep m w0 k info hin with hin0 | ⟨inst, hi, rest⟩
      · exact Or.inl hin0
      · exact Or.inr ⟨w0, List.mem_cons_self w0 t, inst, hi, rest⟩
    · exact Or.inr ⟨w, List.mem_cons_of_mem w0 hwmem, rest⟩

/-- Scan soundness: every registration in the handler index built by
explore was discovered on a scanned instance from a method whose decorator
tag names exactly the key it is stored under. -/
theorem explore_sound (providers : List InstanceWrapper) (k : String)
    (info : WebhookHandlerInfo)
    (h : info ∈ handlersFor (explore providers) k) :
    ∃ w, w ∈ providers ∧ ∃ inst, w.inst = some inst ∧ info.inst = inst ∧
      SoundReg info k := by
  rcases sound_foldl_scanStep k info providers [] h with hin | hfound
  · cases hin
  · exact hfound

/-! The handler-index invariant of the scan: no stored bucket is empty and
every stored registration carries the key of its bucket. -/

/-- The map invariant: every stored key has a non-empty bucket and every
registration in a bucket names the bucket key as its event name. -/
def WellFormed (m : HandlerMap) : Prop :=
  ∀ kv, kv ∈ m → kv.2 ≠ [] ∧ ∀ info, info ∈ kv.2 → info.eventName = kv.1

theorem wellFormed_nil : WellFormed [] := by
  intro kv hkv
  cases hkv

/-- Registrations read back through get were stored in some bucket whose
key is the get key. -/
theorem mem_handlersFor_mem_map (m : HandlerMap) (k : String)
    (info : WebhookHandlerInfo) (h : info ∈ handlersFor m k) :
    ∃ kv, kv ∈ m ∧ kv.1 = k ∧ info ∈ kv.2 := by
  unfold handlersFor mapGet at h
  cases hfind : m.find? (fun kv => kv.1 == k) with
  | none => rw [hfind] at h; cases h
  | some kv0 =>
    rw [hfind] at h
    simp only [Option.map_some', Option.getD_some] at h
    have hp : (kv0.1 == k) = true :=
      List.find?_some (p := fun kv : String × List WebhookHandlerInfo => kv.1 == k) hfind
    exact ⟨kv0, List.mem_of_find?_eq_some hfind, by rwa [beq_iff_eq] at hp, h⟩

theorem wellFormed_lookup (m : HandlerMap) (inst : ServiceInstance) (n : String)
    (hwf : WellFormed m) : WellFormed (lookupWebhookHandlers m inst n) := by
  cases hf : inst.methods.find? (fun md => md.name == n) with
  | none => rw [lookup_of_find_none m inst n hf]; exact hwf
  | some methodRef =>
    cases hm : methodRef.metadata with
    | none => rw [lookup_of_meta_none m inst n methodRef hf hm]; exact hwf
    | some meta =>
      have hlk : lookupWebhookHandlers m inst n =
          mapSet (if mapHas m meta.eventName then m else mapSet m meta.eventName [])
            meta.eventName
            (handlersFor
              (if mapHas m meta.eventName then m else mapSet m meta.eventName [])
              meta.eventName ++ [⟨inst, n, meta.eventName⟩]) := by
        unfold lookupWebhookHandlers
        rw [hf]
        dsimp only
        rw [hm]
      rw [hlk]
      intro kv hkv
      rcases mem_mapSet _ _ _ kv hkv with heq | ⟨hin, hne⟩
      · subst heq
        constructor
        · intro habs
          exact List.cons_ne_nil _ _ (List.append_eq_nil.mp habs).2
        · intro info hinfo
          rcases List.mem_append.mp hinfo with hold | hnew
          · rw [handlersFor_ensure] at hold
            rcases mem_handlersFor_mem_map m meta.eventName info hold with
              ⟨kv0, hkv0, hk0, hin0⟩
            have := (hwf kv0 hkv0).2 info hin0
            rw [this, hk0]
          · rw [List.mem_singleton.mp hnew]
      · have hne' : kv.1 ≠ meta.eventName := by rwa [beq_eq_false_iff_ne] at hne
        by_cases hhas : mapHas m meta.eventName = true
        · rw [if_pos hhas] at hin
          exact hwf kv hin
        · rw [if_neg hhas] at hin
          rcases mem_mapSet _ _ _ kv hin with heq2 | ⟨hin2, _⟩
          · exact absurd (congrArg Prod.fst heq2) hne'
          · exact hwf kv hin2

theorem wellFormed_scanInstance (m : HandlerMap) (inst : ServiceInstance)
    (hwf : WellFormed m) : WellFormed (scanInstance m inst) := by
  unfold scanInstance
  generalize inst.methods = l
  induction l generalizing m with
  | nil => exact hwf
  | cons x t ih =>
    rw [List.foldl_cons]
    exact ih _ (wellFormed_lookup m inst x.name hwf)

theorem wellFormed_scanStep (m : HandlerMap) (w : InstanceWrapper)
    (hwf : WellFormed m) : WellFormed (scanStep m w) := by
  unfold scanStep
  cases w.inst with
  | none => exact hwf
  | some inst => exact wellFormed_scanInstance m inst hwf

theorem wellFormed_foldl_scanStep (l : List InstanceWrapper) (m : HandlerMap)
    (hwf : WellFormed m) : WellFormed (l.foldl scanStep m) := by
  induction l generalizing m with
  | nil => exact hwf
  | cons w t ih =>
    rw [List.foldl_cons]
    exact ih _ (wellFormed_scanStep m w hwf)

theorem wellFormed_explore (providers : List InstanceWrapper) :
    WellFormed (explore providers) :=
  wellFormed_foldl_scanStep providers [] wellFormed_nil

/-! Behavior erasure: the scan step of the service reads only method names
and decorator metadata and never invokes a handler, so the index it builds
commutes with replacing every handler body by an inert one. -/

/-- Replace a method's runtime behavior by an inert one, keeping its name
and decorator metadata. -/
def eraseBehavior (md : MethodDef) : MethodDef :=
  { md with behavior := fun _ => { duration := 0, result := Except.ok () } }

/-- Erase every method behavior of an instance. -/
def eraseInstance (inst : ServiceInstance) : ServiceInstance :=
  { inst with methods := inst.methods.map eraseBehavior }

/-- Erase the behaviors of a wrapped instance. -/
def eraseWrapper (w : InstanceWrapper) : InstanceWrapper :=
  { inst := w.inst.map eraseInstance }

/-- Erase the behaviors referenced by a registration. -/
def eraseInfo (info : WebhookHandlerInfo) : WebhookHandlerInfo :=
  { info with inst := eraseInstance info.inst }

/-- Erase the behaviors referenced by a handler index. -/
def eraseMap (m : HandlerMap) : HandlerMap :=
  m.map (fun kv => (kv.1, kv.2.map eraseInfo))

theorem find?_name_eraseBehavior (l : List MethodDef) (n : String) :
    (l.map eraseBehavior).find? (fun x => x.name == n) =
      (l.find? (fun x => x.name == n)).map eraseBehavior := by
  rw [List.find?_map]
  rfl

theorem mapHas_eraseMap (m : HandlerMap) (k : String) :
    mapHas (eraseMap m) k = mapHas m k := by
  unfold mapHas eraseMap
  rw [List.any_map]
  rfl

theorem mapGet_eraseMap (m : HandlerMap) (k : String) :
    mapGet (eraseMap m) k = (mapGet m k).map (fun b => b.map eraseInfo) := by
  unfold mapGet eraseMap
  rw [List.find?_map]
  cases hfind : m.find? (fun kv => kv.1 == k) with
  | none =>
    have : m.find? ((fun kv : String × List WebhookHandlerInfo => kv.1 == k) ∘
        fun kv => (kv.1, kv.2.map eraseInfo)) = none := hfind
    rw [this]
    rfl
  | some kv0 =>
    have : m.find? ((fun kv : String × List WebhookHandlerInfo => kv.1 == k) ∘
        fun kv => (kv.1, kv.2.map eraseInfo)) = some kv0 := hfind
    rw [this]
    rfl

theorem handlersFor_eraseMap (m : HandlerMap) (k : String) :
    handlersFor (eraseMap m) k = (handlersFor m k).map eraseInfo := by
  unfold handlersFor
  rw [mapGet_eraseMap]
  cases mapGet m k with
  | none => rfl
  | some b => rfl

theorem mapSet_eraseMap (m : HandlerMap) (k : String)
    (v : List WebhookHandlerInfo) :
    mapSet (eraseMap m) k (v.map eraseInfo) = eraseMap (mapSet m k v) := by
  unfold mapSet
  have hany : (eraseMap m).any (fun kv => kv.1 == k) = m.any (fun kv => kv.1 == k) := by
    unfold eraseMap
    rw [List.any_map]
    rfl
  rw [hany]
  by_cases h : m.any (fun kv => kv.1 == k) = true
  · rw [if_pos h, if_pos h]
    unfold eraseMap
    rw [List.map_map, List.map_map]
    apply List.map_congr_left
    intro kv _
    by_cases hk : (kv.1 == k) = true
    · simp [Function.comp, hk]
    · rw [Bool.not_eq_true] at hk
      simp [Function.comp, hk]
  · rw [if_neg h, if_neg h]
    unfold eraseMap
    rw [List.map_append]
    rfl

theorem lookup_eraseMap (m : HandlerMap) (inst : ServiceInstance) (n : String) :
    lookupWebhookHandlers (eraseMap m) (eraseInstance inst) n =
      eraseMap (lookupWebhookHandlers m inst n) := by
  cases hf : inst.methods.find? (fun md => md.name == n) with
  | none =>
    have hf2 : (eraseInstance inst).methods.find? (fun md => md.name == n) = none := by
      unfold eraseInstance
      dsimp only
      rw [find?_name_eraseBehavior, hf]
      rfl
    rw [lookup_of_find_none _ _ _ hf2, lookup_of_find_none _ _ _ hf]
  | some md =>
    have hf2 : (eraseInstance inst).methods.find? (fun md => md.name == n) =
        some (eraseBehavior md) := by
      unfold eraseInstance
      dsimp only
      rw [find?_name_eraseBehavior, hf]
      rfl
    cases hm : md.metadata with
    | none =>
      have hm2 : (eraseBehavior md).metadata = none := hm
      rw [lookup_of_meta_none _ _ _ _ hf2 hm2, lookup_of_meta_none _ _ _ _ hf hm]
    | some meta =>
      have hm2 : (eraseBehavior md).metadata = some meta := hm
      have hlhs : lookupWebhookHandlers (eraseMap m) (eraseInstance inst) n =
          mapSet
            (if mapHas (eraseMap m) meta.eventName then eraseMap m
              else mapSet (eraseMap m) meta.eventName [])
            meta.eventName
            (handlersFor
              (if mapHas (eraseMap m) meta.eventName then eraseMap m
                else mapSet (eraseMap m) meta.eventName [])
              meta.eventName ++ [⟨eraseInstance inst, n, meta.eventName⟩]) := by
        unfold lookupWebhookHandlers
        rw [hf2]
        dsimp only
        rw [hm2]
      have hrhs : lookupWebhookHandlers m inst n =
          mapSet (if mapHas m meta.eventName then m else mapSet m meta.eventName [])
            meta.eventName
            (handlersFor
              (if mapHas m meta.eventName then m else mapSet m meta.eventName [])
              meta.eventName ++ [⟨inst, n, meta.eventName⟩]) := by
        unfold lookupWebhookHandlers
        rw [hf]
        dsimp only
        rw [hm]
      rw [hlhs, hrhs]
      have hens : (if mapHas (eraseMap m) meta.eventName then eraseMap m
          else mapSet (eraseMap m) meta.eventName []) =
          eraseMap (if mapHas m meta.eventName then m else mapSet m meta.eventName []) := by
        rw [mapHas_eraseMap]
        by_cases h : mapHas m meta.eventName = true
        · rw [if_pos h, if_pos h]
        · rw [if_neg h, if_neg h]
          exact mapSet_eraseMap m meta.eventName []
      rw [hens, handlersFor_eraseMap]
      have hlist : (handlersFor (if mapHas m meta.eventName then m
            else mapSet m meta.eventName []) meta.eventName).map eraseInfo ++
          [⟨eraseInstance inst, n, meta.eventName⟩] =
          ((handlersFor (if mapHas m meta.eventName then m
            else mapSet m meta.eventName []) meta.eventName) ++
            [{ inst := inst, methodName := n,
               eventName := meta.eventName : WebhookHandlerInfo }]).map eraseInfo := by
        rw [List.map_append]
        rfl
      rw [hlist, mapSet_eraseMap]

theorem scanInstance_eraseMap (m : HandlerMap) (inst : ServiceInstance) :
    scanInstance (eraseMap m) (eraseInstance inst) =
      eraseMap (scanInstance m inst) := by
  unfold scanInstance
  have hmethods : (eraseInstance inst).methods = inst.methods.map eraseBehavior := rfl
  rw [hmethods, List.foldl_map]
  have hgen : ∀ (l : List MethodDef) (m0 : HandlerMap),
      l.foldl (fun acc md =>
        lookupWebhookHandlers acc (eraseInstance inst) (eraseBehavior md).name)
        (eraseMap m0) =
      eraseMap (l.foldl (fun acc md => lookupWebhookHandlers acc inst md.name) m0) := by
    intro l
    induction l with
    | nil => intro m0; rfl
    | cons x t ih =>
      intro m0
      rw [List.foldl_cons, List.foldl_cons]
      have hstep : lookupWebhookHandlers (eraseMap m0) (eraseInstance inst)
          (eraseBehavior x).name = eraseMap (lookupWebhookHandlers m0 inst x.name) :=
        lookup_eraseMap m0 inst x.name
      rw [hstep]
      exact ih _
  exact hgen inst.methods m

theorem scanStep_eraseMap (m : HandlerMap) (w : InstanceWrapper) :
    scanStep (eraseMap m) (eraseWrapper w) = eraseMap (scanStep m w) := by
  unfold scanStep eraseWrapper
  cases w.inst with
  | none => rfl
  | some inst => exact scanInstance_eraseMap m inst

/-- The scan commutes with erasing every handler body: the handler index
explore builds is insensitive to the runtime behavior of the methods it
scans, so the scan cannot have invoked any of them. -/
theorem explore_eraseMap (providers : List InstanceWrapper) :
    explore (providers.map eraseWrapper) = eraseMap (explore providers) := by
  unfold explore
  rw [List.foldl_map]
  have hgen : ∀ (l : List InstanceWrapper) (m0 : HandlerMap),
      l.foldl (fun acc w => scanStep acc (eraseWrapper w)) (eraseMap m0) =
      eraseMap (l.foldl scanStep m0) := by
    intro l
    induction l with
    | nil => intro m0; rfl
    | cons w t ih =>
      intro m0
      rw [List.foldl_cons, List.foldl_cons, scanStep_eraseMap]
      exact ih _
  exact hgen providers []

/-! Dispatch lemmas for processWebhookEvent. -/

/-- Zero registered handlers for the type: report not-processed and start
no invocation. -/
theorem processWebhookEvent_no_handlers (m : HandlerMap) (e : StripeEvent)
    (h : handlersFor m e.type = []) :
    processWebhookEvent m e =
      { result := Except.ok false, settleTime := 0, trace := [] } := by
  unfold processWebhookEvent
  rw [h]
  rfl

/-- The shape of a dispatch when at least one handler is registered. -/
theorem processWebhookEvent_pos (m : HandlerMap) (e : StripeEvent)
    (h : handlersFor m e.type ≠ []) :
    processWebhookEvent m e =
      (match earliestRejection (rejections ((handlersFor m e.type).map
          (fun hh => invoke hh.inst hh.methodName e))) with
       | some te =>
         { result := Except.error te.2, settleTime := te.1,
           trace := (handlersFor m e.type).map (fun hh =>
             { instId := hh.inst.instId, methodName := hh.methodName, event := e }) }
       | none =>
         { result := Except.ok true,
           settleTime := (((handlersFor m e.type).map
             (fun hh => invoke hh.inst hh.methodName e)).map
               HandlerOutcome.duration).foldl Nat.max 0,
           trace := (handlersFor m e.type).map (fun hh =>
             { instId := hh.inst.instId, methodName := hh.methodName, event := e }) }) := by
  unfold processWebhookEvent
  have hlen : ((handlersFor m e.type).length == 0) = false := by
    rw [beq_eq_false_iff_ne]
    intro hc
    exact h (List.eq_nil_of_length_eq_zero hc)
  simp only [hlen, Bool.false_eq_true, if_false]

/-- Every dispatch with handlers starts exactly one invocation per
registered handler, in bucket order, each carrying the dispatched event. -/
theorem processWebhookEvent_trace_pos (m : HandlerMap) (e : StripeEvent)
    (h : handlersFor m e.type ≠ []) :
    (processWebhookEvent m e).trace =
      (handlersFor m e.type).map (fun hh =>
        { instId := hh.inst.instId, methodName := hh.methodName, event := e }) := by
  rw [processWebhookEvent_pos m e h]
  cases earliestRejection (rejections ((handlersFor m e.type).map
      (fun hh => invoke hh.inst hh.methodName e))) with
  | none => rfl
  | some te => rfl

/-- When every started handler fulfills, the dispatch fulfills with true. -/
theorem processWebhookEvent_ok_of_all_ok (m : HandlerMap) (e : StripeEvent)
    (hne : handlersFor m e.type ≠ [])
    (hok : ∀ hh, hh ∈ handlersFor m e.type →
      (invoke hh.inst hh.methodName e).result = Except.ok ()) :
    (processWebhookEvent m e).result = Except.ok true := by
  rw [processWebhookEvent_pos m e hne]
  have hrej : rejections ((handlersFor m e.type).map
      (fun hh => invoke hh.inst hh.methodName e)) = [] := by
    unfold rejections
    rw [List.filterMap_eq_nil_iff]
    intro o ho
    rw [List.mem_map] at ho
    obtain ⟨hh, hmem, heq⟩ := ho
    rw [← heq]
    rw [hok hh hmem]
  rw [hrej]
  rfl

/-- When some started handler rejects, the dispatch rejects (it never
fulfills, with true or otherwise). -/
theorem processWebhookEvent_error_of_rejection (m : HandlerMap) (e : StripeEvent)
    (hh : WebhookHandlerInfo) (err : WebhookError)
    (hmem : hh ∈ handlersFor m e.type)
    (herr : (invoke hh.inst hh.methodName e).result = Except.error err) :
    ∃ err2, (processWebhookEvent m e).result = Except.error err2 := by
  have hne : handlersFor m e.type ≠ [] := by
    intro hc
    rw [hc] at hmem
    cases hmem
  rw [processWebhookEvent_pos m e hne]
  have hmem2 : ((invoke hh.inst hh.methodName e).duration, err) ∈
      rejections ((handlersFor m e.type).map
        (fun hh => invoke hh.inst hh.methodName e)) := by
    unfold rejections
    rw [List.mem_filterMap]
    refine ⟨invoke hh.inst hh.methodName e, List.mem_map_of_mem _ hmem, ?_⟩
    rw [herr]
  cases hrej : rejections ((handlersFor m e.type).map
      (fun hh => invoke hh.inst hh.methodName e)) with
  | nil =>
    rw [hrej] at hmem2
    cases hmem2
  | cons x xs =>
    have hearly : earliestRejection (x :: xs) =
        some (xs.foldl (fun (a y : Nat × WebhookError) =>
          if y.1 < a.1 then y else a) x) := rfl
    rw [hearly]
    exact ⟨(xs.foldl (fun (a y : Nat × WebhookError) =>
      if y.1 < a.1 then y else a) x).2, rfl⟩

/-! Concrete sample data used to witness the claims: one provider instance
with a fast-failing handler and a slow succeeding handler for
payment.succeeded, a handler for invoice.paid, and an untagged method. -/

def exFailingMethod : MethodDef :=
  { name := "onPaymentFail",
    metadata := some { eventName := "payment.succeeded" },
    behavior := fun _ =>
      { duration := 1, result := Except.error (WebhookError.other "boom") } }

def exSlowMethod : MethodDef :=
  { name := "onPaymentSlow",
    metadata := some { eventName := "payment.succeeded" },
    behavior := fun _ => { duration := 5, result := Except.ok () } }

def exUntaggedMethod : MethodDef :=
  { name := "helperMethod", metadata := none,
    behavior := fun _ => { duration := 0, result := Except.ok () } }

def exQuickMethod : MethodDef :=
  { name := "onInvoicePaid",
    metadata := some { eventName := "invoice.paid" },
    behavior := fun _ => { duration := 2, result := Except.ok () } }

def exInstance : ServiceInstance :=
  { instId := 1,
    methods := [exFailingMethod, exSlowMethod, exUntaggedMethod, exQuickMethod] }

def exProviders : List InstanceWrapper :=
  [{ inst := some exInstance }, { inst := none }]

def exPayEvent : StripeEvent :=
  { type := "payment.succeeded", id := "evt_1", payloadTag := 0 }

def exInvoiceEvent : StripeEvent :=
  { type := "invoice.paid", id := "evt_2", payloadTag := 1 }

def exRefundEvent : StripeEvent :=
  { type := "refund.created", id := "evt_3", payloadTag := 2 }

/-- The settle times of the individual handler invocations a dispatch
starts (each handler runs to completion at its own settle time, whether or
not the dispatch result is already settled). -/
def handlerSettleTimes (m : HandlerMap) (e : StripeEvent) : List Nat :=
  (handlersFor m e.type).map (fun hh => (invoke hh.inst hh.methodName e).duration)

/-- Claim C1, counterexample: with two handlers registered for
payment.succeeded, one rejecting at time 1 and one fulfilling at time 5,
processWebhookEvent surfaces the rejection at time 1, strictly before the
sibling handler invocation has run to completion at time 5 (Promise.all
rejects at the first rejection; it does not wait for all settlements), so
the failure is not surfaced only after every handler invocation for the
dispatch has run to completion. The second handler is nevertheless started
and never cancelled, and the result is not true. -/
theorem dispatch_failfast_counterexample :
    (processWebhookEvent (explore exProviders) exPayEvent).result =
      Except.error (WebhookError.other "boom") ∧
    (processWebhookEvent (explore exProviders) exPayEvent).settleTime = 1 ∧
    handlerSettleTimes (explore exProviders) exPayEvent = [1, 5] ∧
    (processWebhookEvent (explore exProviders) exPayEvent).settleTime < 5 := by
  refine ⟨rfl, rfl, rfl, ?_⟩
  have h1 : (processWebhookEvent (explore exProviders) exPayEvent).settleTime = 1 := rfl
  rw [h1]
  exact Nat.one_lt_succ_succ 3

/-- Claim C1 (amended): for every dispatch in which some registered handler
for the event type fails, processWebhookEvent rejects (the result is never
a fulfilled true), and still starts every registered handler invocation
for that dispatch, cancelling none; the failure may however be surfaced
before slower sibling handler invocations have run to completion. -/
theorem dispatch_failure_not_swallowed (m : HandlerMap) (e : StripeEvent)
    (hh : WebhookHandlerInfo) (err : WebhookError)
    (hmem : hh ∈ handlersFor m e.type)
    (herr : (invoke hh.inst hh.methodName e).result = Except.error err) :
    (∃ err2, (processWebhookEvent m e).result = Except.error err2) ∧
    (processWebhookEvent m e).trace =
      (handlersFor m e.type).map (fun h2 =>
        { instId := h2.inst.instId, methodName := h2.methodName, event := e }) := by
  have hne : handlersFor m e.type ≠ [] := by
    intro hc
    rw [hc] at hmem
    cases hmem
  exact ⟨processWebhookEvent_error_of_rejection m e hh err hmem herr,
    processWebhookEvent_trace_pos m e hne⟩

/-- Witness for the amended claim C1 at the sample data: the failing
payment handler makes the dispatch reject while both registered handlers
are started. -/
theorem dispatch_failure_not_swallowed_witness :
    (∃ err2, (processWebhookEvent (explore exProviders) exPayEvent).result =
      Except.error err2) ∧
    (processWebhookEvent (explore exProviders) exPayEvent).trace =
      (handlersFor (explore exProviders) exPayEvent.type).map (fun h2 =>
        { instId := h2.inst.instId, methodName := h2.methodName, event := exPayEvent }) := by
  apply dispatch_failure_not_swallowed (explore exProviders) exPayEvent
    ⟨exInstance, "onPaymentFail", "payment.succeeded"⟩ (WebhookError.other "boom")
  · have hb : handlersFor (explore exProviders) exPayEvent.type =
        [⟨exInstance, "onPaymentFail", "payment.succeeded"⟩,
         ⟨exInstance, "onPaymentSlow", "payment.succeeded"⟩] := rfl
    rw [hb]
    exact List.mem_cons_self _ _
  · rfl

/-- Claim C2: a dispatch of an event with at least one registered handler
starts exactly one invocation per registered handler (one invocation per
bucket entry, in order), every invocation receives the dispatched event,
and when all invocations fulfill the dispatch fulfills with true. -/
theorem dispatch_fanout_complete (m : HandlerMap) (e : StripeEvent)
    (hne : handlersFor m e.type ≠ []) :
    (processWebhookEvent m e).trace =
      (handlersFor m e.type).map (fun hh =>
        { instId := hh.inst.instId, methodName := hh.methodName, event := e }) ∧
    (processWebhookEvent m e).trace.length = (handlersFor m e.type).length ∧
    (∀ inv, inv ∈ (processWebhookEvent m e).trace → inv.event = e) ∧
    ((∀ hh, hh ∈ handlersFor m e.type →
        (invoke hh.inst hh.methodName e).result = Except.ok ()) →
      (processWebhookEvent m e).result = Except.ok true) := by
  refine ⟨processWebhookEvent_trace_pos m e hne, ?_, ?_,
    processWebhookEvent_ok_of_all_ok m e hne⟩
  · rw [processWebhookEvent_trace_pos m e hne, List.length_map]
  · intro inv hinv
    rw [processWebhookEvent_trace_pos m e hne] at hinv
    rw [List.mem_map] at hinv
    obtain ⟨hh, _, heq⟩ := hinv
    rw [← heq]

/-- Witness for claim C2 at the sample data: the single invoice.paid
handler succeeds, so the dispatch fulfills with true and starts exactly
one invocation. -/
theorem dispatch_fanout_complete_witness :
    (processWebhookEvent (explore exProviders) exInvoiceEvent).result =
      Except.ok true ∧
    (processWebhookEvent (explore exProviders) exInvoiceEvent).trace.length =
      (handlersFor (explore exProviders) exInvoiceEvent.type).length := by
  have hb : handlersFor (explore exProviders) exInvoiceEvent.type =
      [⟨exInstance, "onInvoicePaid", "invoice.paid"⟩] := rfl
  have hne : handlersFor (explore exProviders) exInvoiceEvent.type ≠ [] := by
    rw [hb]
    exact List.cons_ne_nil _ _
  have hall := dispatch_fanout_complete (explore exProviders) exInvoiceEvent hne
  refine ⟨hall.2.2.2 ?_, hall.2.1⟩
  intro hh hmem
  rw [hb] at hmem
  rw [List.mem_singleton.mp hmem]
  rfl

/-- Claim C3: a dispatch of an event whose type has zero registered
handlers fulfills with false and starts no handler invocation. -/
theorem dispatch_unhandled_type (m : HandlerMap) (e : StripeEvent)
    (h : handlersFor m e.type = []) :
    processWebhookEvent m e =
      { result := Except.ok false, settleTime := 0, trace := [] } :=
  processWebhookEvent_no_handlers m e h

/-- Witness for claim C3 at the sample data: no handler is registered for
refund.created. -/
theorem dispatch_unhandled_type_witness :
    processWebhookEvent (explore exProviders) exRefundEvent =
      { result := Except.ok false, settleTime := 0, trace := [] } :=
  dispatch_unhandled_type (explore exProviders) exRefundEvent rfl

/-- Claim C4: discovery completeness. For every scanned wrapper exposing an
instance and every method of that instance whose decorator tag names E,
after explore the handler index contains the registration for that
instance and method name under key E. The find? hypothesis states that the
method is what property lookup by its name yields on the instance (always
the case for a JS object, whose method names are unique). -/
theorem scan_discovery_complete (providers : List InstanceWrapper)
    (w : InstanceWrapper) (inst : ServiceInstance) (md : MethodDef)
    (meta : StripeWebhookHandlerMetadata)
    (hw : w ∈ providers) (hi : w.inst = some inst)
    (hf : inst.methods.find? (fun x => x.name == md.name) = some md)
    (hm : md.metadata = some meta) :
    (⟨inst, md.name, meta.eventName⟩ : WebhookHandlerInfo) ∈
      handlersFor (explore providers) meta.eventName :=
  explore_complete providers w inst md meta hw hi hf hm

/-- Witness for claim C4 at the sample data: the invoice.paid handler
method of the sample instance is registered under invoice.paid. -/
theorem scan_discovery_complete_witness :
    (⟨exInstance, "onInvoicePaid", "invoice.paid"⟩ : WebhookHandlerInfo) ∈
      handlersFor (explore exProviders) "invoice.paid" :=
  scan_discovery_complete exProviders { inst := some exInstance } exInstance
    exQuickMethod { eventName := "invoice.paid" }
    (List.mem_cons_self _ _) rfl rfl rfl

/-- Claim C5: no cross-type leakage. Every handler invocation started by a
dispatch over the index built by explore carries the dispatched event and
corresponds to a registration stored under the dispatched event's type,
whose underlying method carries a decorator tag naming exactly that type;
hence a handler tagged with a different event name is never invoked. -/
theorem dispatch_no_cross_type_leakage (providers : List InstanceWrapper)
    (e : StripeEvent) (inv : Invocation)
    (hinv : inv ∈ (processWebhookEvent (explore providers) e).trace) :
    inv.event = e ∧
    ∃ info, info ∈ handlersFor (explore providers) e.type ∧
      inv.instId = info.inst.instId ∧ inv.methodName = info.methodName ∧
      info.eventName = e.type ∧
      ∃ md meta,
        info.inst.methods.find? (fun x => x.name == info.methodName) = some md ∧
        md.metadata = some meta ∧ meta.eventName = e.type := by
  by_cases hb : handlersFor (explore providers) e.type = []
  · rw [processWebhookEvent_no_handlers (explore providers) e hb] at hinv
    cases hinv
  · rw [processWebhookEvent_trace_pos (explore providers) e hb] at hinv
    rw [List.mem_map] at hinv
    obtain ⟨info, hmem, heq⟩ := hinv
    rcases explore_sound providers e.type info hmem with
      ⟨w, hw, inst, hi, hinfo, hev, md, meta, hfind, hmeta, htag⟩
    subst heq
    exact ⟨rfl, info, hmem, rfl, rfl, hev, md, meta, hfind, hmeta, htag⟩

/-- Witness for claim C5 at the sample data: the first invocation of the
payment.succeeded dispatch corresponds to a payment.succeeded
registration. -/
theorem dispatch_no_cross_type_leakage_witness :
    ({ instId := 1, methodName := "onPaymentFail", event := exPayEvent } :
        Invocation).event = exPayEvent ∧
    ∃ info, info ∈ handlersFor (explore exProviders) exPayEvent.type ∧
      ({ instId := 1, methodName := "onPaymentFail", event := exPayEvent } :
        Invocation).instId = info.inst.instId ∧
      ({ instId := 1, methodName := "onPaymentFail", event := exPayEvent } :
        Invocation).methodName = info.methodName ∧
      info.eventName = exPayEvent.type ∧
      ∃ md meta,
        info.inst.methods.find? (fun x => x.name == info.methodName) = some md ∧
        md.metadata = some meta ∧ meta.eventName = exPayEvent.type := by
  apply dispatch_no_cross_type_leakage exProviders exPayEvent
  have ht : (processWebhookEvent (explore exProviders) exPayEvent).trace =
      [{ instId := 1, methodName := "onPaymentFail", event := exPayEvent },
       { instId := 1, methodName := "onPaymentSlow", event := exPayEvent }] := rfl
  rw [ht]
  exact List.mem_cons_self _ _

/-- Claim C6: a method whose decorator tag is absent, malformed or
unreadable (Reflect.getMetadata yields nothing for it) produces no
registration anywhere in the index, while every other validly tagged
method of the scanned instances is still registered; the scan itself is a
total function and always completes. -/
theorem scan_skips_untagged (providers : List InstanceWrapper)
    (w : InstanceWrapper) (inst : ServiceInstance) (md : MethodDef)
    (hw : w ∈ providers) (hi : w.inst = some inst)
    (hf : inst.methods.find? (fun x => x.name == md.name) = some md)
    (hm : md.metadata = none) :
    (∀ k info, info ∈ handlersFor (explore providers) k →
      ¬(info.inst = inst ∧ info.methodName = md.name)) ∧
    (∀ w2 inst2 md2 meta2, w2 ∈ providers → w2.inst = some inst2 →
      inst2.methods.find? (fun x => x.name == md2.name) = some md2 →
      md2.metadata = some meta2 →
      (⟨inst2, md2.name, meta2.eventName⟩ : WebhookHandlerInfo) ∈
        handlersFor (explore providers) meta2.eventName) := by
  constructor
  · intro k info hmem hcontra
    rcases explore_sound providers k info hmem with
      ⟨w0, hw0, inst0, hi0, hinfo, hev, md0, meta0, hfind, hmeta, htag⟩
    rw [hcontra.1, hcontra.2] at hfind
    rw [hf] at hfind
    have : md = md0 := by injection hfind
    rw [← this] at hmeta
    rw [hm] at hmeta
    cases hmeta
  · intro w2 inst2 md2 meta2 hw2 hi2 hf2 hm2
    exact explore_complete providers w2 inst2 md2 meta2 hw2 hi2 hf2 hm2

/-- Witness for claim C6 at the sample data: the untagged helper method of
the sample instance. -/
theorem scan_skips_untagged_witness :
    (∀ k info, info ∈ handlersFor (explore exProviders) k →
      ¬(info.inst = exInstance ∧ info.methodName = exUntaggedMethod.name)) ∧
    (∀ w2 inst2 md2 meta2, w2 ∈ exProviders → w2.inst = some inst2 →
      inst2.methods.find? (fun x => x.name == md2.name) = some md2 →
      md2.metadata = some meta2 →
      (⟨inst2, md2.name, meta2.eventName⟩ : WebhookHandlerInfo) ∈
        handlersFor (explore exProviders) meta2.eventName) :=
  scan_skips_untagged exProviders { inst := some exInstance } exInstance
    exUntaggedMethod (List.mem_cons_self _ _) rfl rfl rfl

/-- Claim C7: the handler-index invariant. Every lookupWebhookHandlers
step preserves well-formedness (so the invariant holds at every
intermediate map of the scan, whose steps are exactly these), and the
index built by explore is well-formed: every stored key maps to a
non-empty bucket and every stored registration names its bucket key as its
event name. -/
theorem handler_index_wellformed :
    (∀ m inst n, WellFormed m → WellFormed (lookupWebhookHandlers m inst n)) ∧
    (∀ providers, WellFormed (explore providers)) :=
  ⟨fun m inst n hwf => wellFormed_lookup m inst n hwf, wellFormed_explore⟩

/-- Witness for claim C7: a registering step on the empty map yields a
well-formed map. -/
theorem handler_index_wellformed_witness :
    WellFormed (lookupWebhookHandlers [] exInstance "onPaymentFail") :=
  handler_index_wellformed.1 [] exInstance "onPaymentFail"
    (fun kv hkv => absurd hkv (List.not_mem_nil kv))

/-- Claim C8: the scan never invokes a discovered handler method and its
only effect is the handler index it returns. In the model the source's
explore is a pure function into HandlerMap, with no invocation effect to
record because the source scan contains no handler call; the theorem
states the resulting observational fact: the index explore builds is
invariant under replacing every method behavior by an inert one, which
would be impossible if the scan invoked any handler and depended on it. -/
theorem scan_invokes_no_handler (providers : List InstanceWrapper) :
    explore (providers.map eraseWrapper) = eraseMap (explore providers) :=
  explore_eraseMap providers

/-- Claim C9: verification gates dispatch. Dispatch is only ever invoked
with an event the verifier returned successfully (so the registry only
receives authenticated events), and on any verification failure the
controller returns a failure response without calling
processWebhookEvent. -/
theorem verification_gates_dispatch
    (verify : Nat → String → String → Except WebhookError StripeEvent)
    (m : HandlerMap) (cfg : StripeConfig) (signature : Option String)
    (rawBody : Option Nat) :
    (∀ ev, ev ∈ (handleWebhook verify m cfg signature rawBody).dispatched →
      ∃ payload, rawBody = some payload ∧ jsFalsy signature = false ∧
        jsFalsy cfg.webhookSecret = false ∧
        verify payload (signature.getD "") (cfg.webhookSecret.getD "") =
          Except.ok ev) ∧
    (∀ payload err, jsFalsy signature = false →
      jsFalsy cfg.webhookSecret = false → rawBody = some payload →
      verify payload (signature.getD "") (cfg.webhookSecret.getD "") =
        Except.error err →
      (handleWebhook verify m cfg signature rawBody).dispatched = [] ∧
      (handleWebhook verify m cfg signature rawBody).response =
        WebhookResponse.failure (catchMessage err)) := by
  by_cases hs : jsFalsy signature = true
  · constructor
    · intro ev hev
      simp [handleWebhook, hs] at hev
    · intro payload err hs2 hsec2 hb hv
      rw [hs] at hs2
      exact Bool.noConfusion hs2
  · rw [Bool.not_eq_true] at hs
    by_cases hsec : jsFalsy cfg.webhookSecret = true
    · constructor
      · intro ev hev
        simp [handleWebhook, hs, hsec] at hev
      · intro payload err hs2 hsec2 hb hv
        rw [hsec] at hsec2
        exact Bool.noConfusion hsec2
    · rw [Bool.not_eq_true] at hsec
      cases rawBody with
      | none =>
        constructor
        · intro ev hev
          simp [handleWebhook, hs, hsec] at hev
        · intro payload err hs2 hsec2 hb hv
          exact Option.noConfusion hb
      | some payload0 =>
        cases hv0 : verify payload0 (signature.getD "") (cfg.webhookSecret.getD "") with
        | error err0 =>
          constructor
          · intro ev hev
            simp [handleWebhook, hs, hsec, hv0] at hev
          · intro payload err hs2 hsec2 hb hv
            injection hb with hb
            subst hb
            rw [hv0] at hv
            injection hv with hv
            subst hv
            constructor <;> simp [handleWebhook, hs, hsec, hv0]
        | ok ev0 =>
          constructor
          · intro ev hev
            cases hd : (processWebhookEvent m ev0).result with
            | ok processed =>
              simp [handleWebhook, hs, hsec, hv0, hd] at hev
              subst hev
              exact ⟨payload0, rfl, hs, hsec, hv0⟩
            | error err2 =>
              simp [handleWebhook, hs, hsec, hv0, hd] at hev
              subst hev
              exact ⟨payload0, rfl, hs, hsec, hv0⟩
          · intro payload err hs2 hsec2 hb hv
            injection hb with hb
            subst hb
            rw [hv0] at hv
            exact Except.noConfusion hv

/-- Sample verifier that always fails signature verification. -/
def exVerifyFail : Nat → String → String → Except WebhookError StripeEvent :=
  fun _ _ _ => Except.error (WebhookError.signatureVerification "bad signature")

/-- Sample verifier that accepts and yields the invoice event. -/
def exVerifyOk : Nat → String → String → Except WebhookError StripeEvent :=
  fun _ _ _ => Except.ok exInvoiceEvent

/-- Sample controller configuration with a configured webhook secret. -/
def exCfg : StripeConfig :=
  { apiKey := some "sk_test", webhookSecret := some "whsec_1", apiVersion := none }

/-- Witness for claim C9 at the sample data: a failing verification
produces a failure response and no dispatch call. -/
theorem verification_gates_dispatch_witness :
    (handleWebhook exVerifyFail (explore exProviders) exCfg
      (some "sig") (some 7)).dispatched = [] ∧
    (handleWebhook exVerifyFail (explore exProviders) exCfg
      (some "sig") (some 7)).response =
      WebhookResponse.failure
        (catchMessage (WebhookError.signatureVerification "bad signature")) :=
  (verification_gates_dispatch exVerifyFail (explore exProviders) exCfg
    (some "sig") (some 7)).2
    7 (WebhookError.signatureVerification "bad signature") rfl rfl rfl rfl

/-- Claim C10: the controller maps every input to a returned response
object (the translated function is total, mirroring the catch-all
try block): each guard and error path yields success false with its
message, and a success response is produced exactly from a verified event
whose dispatch fulfilled, carrying the dispatch result and the event type
and id. -/
theorem handleWebhook_response_spec
    (verify : Nat → String → String → Except WebhookError StripeEvent)
    (m : HandlerMap) (cfg : StripeConfig) (signature : Option String)
    (rawBody : Option Nat) :
    (jsFalsy signature = true →
      (handleWebhook verify m cfg signature rawBody).response =
        WebhookResponse.failure "Missing signature header") ∧
    (jsFalsy signature = false → jsFalsy cfg.webhookSecret = true →
      (handleWebhook verify m cfg signature rawBody).response =
        WebhookResponse.failure "Webhook secret not configured") ∧
    (jsFalsy signature = false → jsFalsy cfg.webhookSecret = false →
      rawBody = none →
      (handleWebhook verify m cfg signature rawBody).response =
        WebhookResponse.failure "Missing request body") ∧
    (∀ payload err, jsFalsy signature = false →
      jsFalsy cfg.webhookSecret = false → rawBody = some payload →
      verify payload (signature.getD "") (cfg.webhookSecret.getD "") =
        Except.error err →
      (handleWebhook verify m cfg signature rawBody).response =
        WebhookResponse.failure (catchMessage err)) ∧
    (∀ payload ev err, jsFalsy signature = false →
      jsFalsy cfg.webhookSecret = false → rawBody = some payload →
      verify payload (signature.getD "") (cfg.webhookSecret.getD "") =
        Except.ok ev →
      (processWebhookEvent m ev).result = Except.error err →
      (handleWebhook verify m cfg signature rawBody).response =
        WebhookResponse.failure (catchMessage err)) ∧
    (∀ b t i, (handleWebhook verify m cfg signature rawBody).response =
        WebhookResponse.success b t i →
      ∃ payload ev, rawBody = some payload ∧ jsFalsy signature = false ∧
        jsFalsy cfg.webhookSecret = false ∧
        verify payload (signature.getD "") (cfg.webhookSecret.getD "") =
          Except.ok ev ∧
        t = ev.type ∧ i = ev.id ∧
        (processWebhookEvent m ev).result = Except.ok b) := by
  refine ⟨?_, ?_, ?_, ?_, ?_, ?_⟩
  · intro hs
    simp [handleWebhook, hs]
  · intro hs hsec
    simp [handleWebhook, hs, hsec]
  · intro hs hsec hb
    simp [handleWebhook, hs, hsec, hb]
  · intro payload err hs hsec hb hv
    simp [handleWebhook, hs, hsec, hb, hv]
  · intro payload ev err hs hsec hb hv hd
    simp [handleWebhook, hs, hsec, hb, hv, hd]
  · intro b t i hresp
    by_cases hs : jsFalsy signature = true
    · simp [handleWebhook, hs] at hresp
    · rw [Bool.not_eq_true] at hs
      by_cases hsec : jsFalsy cfg.webhookSecret = true
      · simp [handleWebhook, hs, hsec] at hresp
      · rw [Bool.not_eq_true] at hsec
        cases hb : rawBody with
        | none => simp [handleWebhook, hs, hsec, hb] at hresp
        | some payload0 =>
          cases hv0 : verify payload0 (signature.getD "")
              (cfg.webhookSecret.getD "") with
          | error err0 =>
            simp [handleWebhook, hs, hsec, hb, hv0] at hresp
          | ok ev0 =>
            cases hd : (processWebhookEvent m ev0).result with
            | error err2 =>
              simp [handleWebhook, hs, hsec, hb, hv0, hd] at hresp
            | ok processed =>
              simp [handleWebhook, hs, hsec, hb, hv0, hd] at hresp
              exact ⟨payload0, ev0, rfl, hs, hsec, hv0,
                hresp.2.1.symm, hresp.2.2.symm, by rw [hd, hresp.1]⟩

/-- Witness for claim C10 at the sample data: a missing signature header
yields the corresponding failure response. -/
theorem handleWebhook_response_spec_witness :
    (handleWebhook exVerifyOk (explore exProviders) exCfg none (some 7)).response =
      WebhookResponse.failure "Missing signature header" :=
  (handleWebhook_response_spec exVerifyOk (explore exProviders) exCfg
    none (some 7)).1 rfl
